import Mathlib

/-!
Verification of the identity-verification repository: a Cloudflare relay
(`onRequest`) that forwards session requests to an external provider, and a
reconciliation engine (`performMatching`) that compares user registration data
against document data extracted by the provider.  Strings are modelled as
`List Char` / `String`, JavaScript numbers used by the similarity computation
as exact rationals, and the similarity score as `Rat`.
-/

namespace Jumio

/-- Whitespace predicate modelling the JavaScript whitespace class used by
`trim()` and `replace(/\s+/g, '')` (tab, LF, VT, FF, CR, space, NBSP). -/
def isWS (c : Char) : Bool :=
  c.toNat == 9 || c.toNat == 10 || c.toNat == 11 || c.toNat == 12 ||
  c.toNat == 13 || c.toNat == 32 || c.toNat == 160

theorem toNat_ofNat_valid {n : Nat} (h : n.isValidChar) : (Char.ofNat n).toNat = n := by
  rw [Char.ofNat, dif_pos h]
  rfl

theorem toLower_toNat (c : Char) :
    (c.toLower).toNat = if 65 ≤ c.toNat ∧ c.toNat ≤ 90 then c.toNat + 32 else c.toNat := by
  unfold Char.toLower
  split
  · next h =>
    rw [if_pos ⟨h.1, h.2⟩]
    exact toNat_ofNat_valid (Or.inl (by omega))
  · next h =>
    rw [if_neg (by exact fun hc => h ⟨hc.1, hc.2⟩)]

theorem toUpper_toNat (c : Char) :
    (c.toUpper).toNat = if 97 ≤ c.toNat ∧ c.toNat ≤ 122 then c.toNat - 32 else c.toNat := by
  unfold Char.toUpper
  split
  · next h =>
    rw [if_pos ⟨h.1, h.2⟩]
    exact toNat_ofNat_valid (Or.inl (by omega))
  · next h =>
    rw [if_neg (by exact fun hc => h ⟨hc.1, hc.2⟩)]

theorem isWS_toNat (c : Char) :
    isWS c = true ↔ (c.toNat = 9 ∨ c.toNat = 10 ∨ c.toNat = 11 ∨ c.toNat = 12 ∨
      c.toNat = 13 ∨ c.toNat = 32 ∨ c.toNat = 160) := by
  simp [isWS, or_assoc]

theorem toLower_eq_self (c : Char) (hc : ¬(65 ≤ c.toNat ∧ c.toNat ≤ 90)) :
    c.toLower = c := by
  unfold Char.toLower
  exact if_neg (fun h => hc ⟨h.1, h.2⟩)

theorem toUpper_eq_self (c : Char) (hc : ¬(97 ≤ c.toNat ∧ c.toNat ≤ 122)) :
    c.toUpper = c := by
  unfold Char.toUpper
  exact if_neg (fun h => hc ⟨h.1, h.2⟩)

theorem isWS_toLower (c : Char) : isWS c.toLower = isWS c := by
  have h := toLower_toNat c
  by_cases hc : 65 ≤ c.toNat ∧ c.toNat ≤ 90
  · rw [if_pos hc] at h
    have h1 : isWS c.toLower = false := by
      rw [Bool.eq_false_iff]
      intro hw
      rw [isWS_toNat, h] at hw
      omega
    have h2 : isWS c = false := by
      rw [Bool.eq_false_iff]
      intro hw
      rw [isWS_toNat] at hw
      omega
    rw [h1, h2]
  · rw [toLower_eq_self c hc]

theorem isWS_toUpper (c : Char) : isWS c.toUpper = isWS c := by
  have h := toUpper_toNat c
  by_cases hc : 97 ≤ c.toNat ∧ c.toNat ≤ 122
  · rw [if_pos hc] at h
    have h1 : isWS c.toUpper = false := by
      rw [Bool.eq_false_iff]
      intro hw
      rw [isWS_toNat, h] at hw
      omega
    have h2 : isWS c = false := by
      rw [Bool.eq_false_iff]
      intro hw
      rw [isWS_toNat] at hw
      omega
    rw [h1, h2]
  · rw [toUpper_eq_self c hc]

theorem toUpper_toUpper (c : Char) : c.toUpper.toUpper = c.toUpper := by
  have h := toUpper_toNat c
  by_cases hc : 97 ≤ c.toNat ∧ c.toNat ≤ 122
  · rw [if_pos hc] at h
    exact toUpper_eq_self _ (by omega)
  · rw [toUpper_eq_self c hc, toUpper_eq_self c hc]

/-- Model of JavaScript `String.prototype.trim`: drop leading and trailing
whitespace. -/
def jsTrim (l : List Char) : List Char :=
  ((l.dropWhile isWS).reverse.dropWhile isWS).reverse

/-- Normalization performed inside `calculateSimilarity`:
`(str || '').toLowerCase().trim()`. -/
def normStr (s : String) : List Char :=
  jsTrim (s.data.map Char.toLower)

/-- Source: `const normalizePostcode = (pc) => pc ? pc.replace(/\s+/g, '').toUpperCase() : ''`.
Strip all whitespace, uppercase the remainder. -/
def normalizePostcode (pc : String) : String :=
  ⟨(pc.data.filter (fun c => !isWS c)).map Char.toUpper⟩

theorem dropWhile_idem {p : Char → Bool} (l : List Char) :
    (l.dropWhile p).dropWhile p = l.dropWhile p := by
  induction l with
  | nil => rfl
  | cons c l ih =>
    by_cases h : p c
    · rw [List.dropWhile_cons_of_pos h, ih]
    · rw [List.dropWhile_cons_of_neg h, List.dropWhile_cons_of_neg h]

theorem jsTrim_all_ws {l : List Char} (h : ∀ c ∈ l, isWS c = true) : jsTrim l = [] := by
  have h1 : l.dropWhile isWS = [] := List.dropWhile_eq_nil_iff.mpr (by intro c hc; exact h c hc)
  simp [jsTrim, h1]

theorem jsTrim_eq_nil_iff (l : List Char) : jsTrim l = [] ↔ ∀ c ∈ l, isWS c = true := by
  constructor
  · intro h c hc
    by_contra hw
    unfold jsTrim at h
    rw [List.reverse_eq_nil_iff, List.dropWhile_eq_nil_iff] at h
    rcases List.dropWhile_suffix (l := l) (p := isWS) with ⟨t, ht⟩
    by_cases hcl : c ∈ l.dropWhile isWS
    · exact hw (h c (by simpa using hcl))
    · have hct : c ∈ t := by
        have : c ∈ t ++ l.dropWhile isWS := by rw [ht]; exact hc
        rcases List.mem_append.mp this with h' | h'
        · exact h'
        · exact absurd h' hcl
      have hall : ∀ x ∈ t, isWS x = true := by
        intro x hx
        have htw : t = l.takeWhile isWS := by
          have hsplit := List.takeWhile_append_dropWhile (p := isWS) (l := l)
          have happ : t ++ l.dropWhile isWS = l.takeWhile isWS ++ l.dropWhile isWS := by
            rw [ht, hsplit]
          exact List.append_cancel_right happ
        rw [htw] at hx
        exact List.mem_takeWhile_imp hx
      exact hw (hall c hct)
  · exact jsTrim_all_ws

theorem jsTrim_map {f : Char → Char} (hf : ∀ c, isWS (f c) = isWS c) (l : List Char) :
    jsTrim (l.map f) = (jsTrim l).map f := by
  have hcomp : (isWS ∘ f) = isWS := funext hf
  unfold jsTrim
  rw [List.dropWhile_map, hcomp, ← List.map_reverse, List.dropWhile_map, hcomp,
    ← List.map_reverse]

theorem dropWhile_jsTrim (l : List Char) : (jsTrim l).dropWhile isWS = jsTrim l := by
  cases hB : jsTrim l with
  | nil => rfl
  | cons c r =>
    have hA : l.dropWhile isWS
        = jsTrim l ++ ((l.dropWhile isWS).reverse.takeWhile isWS).reverse := by
      conv_lhs => rw [← List.reverse_reverse (l.dropWhile isWS),
        ← List.takeWhile_append_dropWhile (p := isWS) (l := (l.dropWhile isWS).reverse)]
      rw [List.reverse_append]
      rfl
    have hc : isWS c = false := by
      have h := List.head?_dropWhile_not isWS l
      rw [hA, hB] at h
      simpa using h
    simp [List.dropWhile_cons, hc]

theorem jsTrim_idem (l : List Char) : jsTrim (jsTrim l) = jsTrim l := by
  have h1 : (jsTrim l).reverse = (l.dropWhile isWS).reverse.dropWhile isWS := by
    rw [jsTrim, List.reverse_reverse]
  calc jsTrim (jsTrim l)
      = (((jsTrim l).dropWhile isWS).reverse.dropWhile isWS).reverse := rfl
    _ = ((jsTrim l).reverse.dropWhile isWS).reverse := by rw [dropWhile_jsTrim]
    _ = (((l.dropWhile isWS).reverse.dropWhile isWS).dropWhile isWS).reverse := by rw [h1]
    _ = ((l.dropWhile isWS).reverse.dropWhile isWS).reverse := by rw [dropWhile_idem]
    _ = jsTrim l := rfl

theorem normStr_mk_jsTrim (l : List Char) : normStr ⟨jsTrim l⟩ = normStr l.asString := by
  show jsTrim ((jsTrim l).map Char.toLower) = jsTrim (l.map Char.toLower)
  rw [← jsTrim_map isWS_toLower, jsTrim_idem, jsTrim_map isWS_toLower]

theorem normalizePostcode_idem (pc : String) :
    normalizePostcode (normalizePostcode pc) = normalizePostcode pc := by
  show (⟨((((pc.data.filter _).map Char.toUpper)).filter _).map Char.toUpper⟩ : String) = _
  rw [List.filter_map]
  have h1 : (pc.data.filter fun c => !isWS c).filter ((fun c => !isWS c) ∘ Char.toUpper)
      = pc.data.filter fun c => !isWS c := by
    rw [List.filter_eq_self]
    intro a ha
    have := List.of_mem_filter ha
    simpa [Function.comp, isWS_toUpper] using this
  rw [h1, List.map_map]
  have h2 : (Char.toUpper ∘ Char.toUpper) = Char.toUpper := funext toUpper_toUpper
  rw [h2]
  rfl

/-- Classic unit-cost edit distance (insert, delete, substitute), the
mathematical reference the spec appeals to. -/
def lev : List Char → List Char → Nat
  | [], ys => ys.length
  | xs, [] => xs.length
  | x :: xs, y :: ys =>
    if x = y then lev xs ys
    else 1 + min (lev xs ys) (min (lev xs (y :: ys)) (lev (x :: xs) ys))
termination_by xs ys => xs.length + ys.length

@[simp] theorem lev_nil_left (ys : List Char) : lev [] ys = ys.length := by
  cases ys <;> simp [lev]

@[simp] theorem lev_nil_right (xs : List Char) : lev xs [] = xs.length := by
  cases xs <;> simp [lev]

theorem lev_cons_cons (x y : Char) (xs ys : List Char) :
    lev (x :: xs) (y :: ys) =
      if x = y then lev xs ys
      else 1 + min (lev xs ys) (min (lev xs (y :: ys)) (lev (x :: xs) ys)) := by
  rw [lev]

/-- Edit scripts: `Align xs ys n` holds when `xs` can be aligned with `ys`
using `n` unit-cost operations (copies are free, substitutions, deletions and
insertions cost one each). -/
inductive Align : List Char → List Char → Nat → Prop where
  | nil : Align [] [] 0
  | copy {xs ys n} (c : Char) : Align xs ys n → Align (c :: xs) (c :: ys) n
  | subst {xs ys n} (x y : Char) : Align xs ys n → Align (x :: xs) (y :: ys) (n + 1)
  | del {xs ys n} (x : Char) : Align xs ys n → Align (x :: xs) ys (n + 1)
  | ins {xs ys n} (y : Char) : Align xs ys n → Align xs (y :: ys) (n + 1)

theorem Align.symm {xs ys : List Char} {n : Nat} (h : Align xs ys n) : Align ys xs n := by
  induction h with
  | nil => exact .nil
  | copy c _ ih => exact .copy c ih
  | subst x y _ ih => exact .subst y x ih
  | del x _ ih => exact .ins x ih
  | ins y _ ih => exact .del y ih

theorem Align.snoc_copy {xs ys : List Char} {n : Nat} (c : Char) (h : Align xs ys n) :
    Align (xs ++ [c]) (ys ++ [c]) n := by
  induction h with
  | nil => exact .copy c .nil
  | copy d _ ih => exact .copy d ih
  | subst x y _ ih => exact .subst x y ih
  | del x _ ih => exact .del x ih
  | ins y _ ih => exact .ins y ih

theorem Align.snoc_subst {xs ys : List Char} {n : Nat} (x y : Char) (h : Align xs ys n) :
    Align (xs ++ [x]) (ys ++ [y]) (n + 1) := by
  induction h with
  | nil => exact .subst x y .nil
  | copy d _ ih => exact .copy d ih
  | subst a b _ ih => exact .subst a b ih
  | del a _ ih => exact .del a ih
  | ins b _ ih => exact .ins b ih

theorem Align.snoc_del {xs ys : List Char} {n : Nat} (x : Char) (h : Align xs ys n) :
    Align (xs ++ [x]) ys (n + 1) := by
  induction h with
  | nil => exact .del x .nil
  | copy d _ ih => exact .copy d ih
  | subst a b _ ih => exact .subst a b ih
  | del a _ ih => exact .del a ih
  | ins b _ ih => exact .ins b ih

theorem Align.snoc_ins {xs ys : List Char} {n : Nat} (y : Char) (h : Align xs ys n) :
    Align xs (ys ++ [y]) (n + 1) := by
  induction h with
  | nil => exact .ins y .nil
  | copy d _ ih => exact .copy d ih
  | subst a b _ ih => exact .subst a b ih
  | del a _ ih => exact .del a ih
  | ins b _ ih => exact .ins b ih

theorem Align.rev {xs ys : List Char} {n : Nat} (h : Align xs ys n) :
    Align xs.reverse ys.reverse n := by
  induction h with
  | nil => exact .nil
  | copy c _ ih => simpa using ih.snoc_copy c
  | subst x y _ ih => simpa using ih.snoc_subst x y
  | del x _ ih => simpa using ih.snoc_del x
  | ins y _ ih => simpa using ih.snoc_ins y

theorem align_nil_left (ys : List Char) : Align [] ys ys.length := by
  induction ys with
  | nil => exact .nil
  | cons y ys ih => exact .ins y ih

theorem align_nil_right (xs : List Char) : Align xs [] xs.length := by
  exact (align_nil_left xs).symm

/-- `lev` is achieved by some edit script. -/
theorem lev_align : ∀ (n : Nat) (xs ys : List Char), xs.length + ys.length ≤ n →
    Align xs ys (lev xs ys) := by
  intro n
  induction n with
  | zero =>
    intro xs ys h
    match xs, ys with
    | [], [] => simp only [lev_nil_left, List.length_nil]; exact .nil
    | x :: xs, _ => simp at h
    | [], y :: ys => simp at h
  | succ n ih =>
    intro xs ys h
    match xs, ys with
    | [], ys => simpa using align_nil_left ys
    | x :: xs, [] => simpa using align_nil_right (x :: xs)
    | x :: xs, y :: ys =>
      simp only [List.length_cons] at h
      rw [lev_cons_cons]
      by_cases hxy : x = y
      · rw [if_pos hxy, hxy]
        exact .copy y (ih xs ys (by omega))
      · rw [if_neg hxy]
        rcases Nat.le_total (lev xs ys) (min (lev xs (y :: ys)) (lev (x :: xs) ys)) with
          h1 | h1
        · have heq : 1 + min (lev xs ys)
              (min (lev xs (y :: ys)) (lev (x :: xs) ys)) = lev xs ys + 1 := by omega
          rw [heq]
          exact .subst x y (ih xs ys (by omega))
        · rcases Nat.le_total (lev xs (y :: ys)) (lev (x :: xs) ys) with h2 | h2
          · have heq : 1 + min (lev xs ys)
                (min (lev xs (y :: ys)) (lev (x :: xs) ys)) = lev xs (y :: ys) + 1 := by
              omega
            rw [heq]
            exact .del x (ih xs (y :: ys) (by simp only [List.length_cons]; omega))
          · have heq : 1 + min (lev xs ys)
                (min (lev xs (y :: ys)) (lev (x :: xs) ys)) = lev (x :: xs) ys + 1 := by
              omega
            rw [heq]
            exact .ins y (ih (x :: xs) ys (by simp only [List.length_cons]; omega))

/-- Adding or removing a leading character changes `lev` by at most one, in
all four directions.  Proved jointly by strong induction on total length. -/
theorem lev_cons_bounds : ∀ (n : Nat) (xs ys : List Char), xs.length + ys.length ≤ n →
    (∀ x, lev (x :: xs) ys ≤ lev xs ys + 1) ∧
    (∀ y, lev xs (y :: ys) ≤ lev xs ys + 1) ∧
    (∀ y, lev xs ys ≤ lev xs (y :: ys) + 1) ∧
    (∀ x, lev xs ys ≤ lev (x :: xs) ys + 1) := by
  intro n
  induction n with
  | zero =>
    intro xs ys h
    match xs, ys with
    | [], [] => refine ⟨?_, ?_, ?_, ?_⟩ <;> intro c <;> simp
    | x :: xs, _ => simp at h
    | [], y :: ys => simp at h
  | succ n ih =>
    intro xs ys h
    refine ⟨?_, ?_, ?_, ?_⟩
    · intro x
      cases ys with
      | nil => simp
      | cons y ys =>
        simp only [List.length_cons] at h
        rw [lev_cons_cons]
        by_cases hxy : x = y
        · rw [if_pos hxy]
          exact (ih xs ys (by omega)).2.2.1 y
        · rw [if_neg hxy]
          omega
    · intro y
      cases xs with
      | nil => simp
      | cons x xs =>
        simp only [List.length_cons] at h
        rw [lev_cons_cons]
        by_cases hxy : x = y
        · rw [if_pos hxy]
          exact (ih xs ys (by omega)).2.2.2 x
        · rw [if_neg hxy]
          omega
    · intro y
      cases xs with
      | nil => simp; omega
      | cons x xs =>
        simp only [List.length_cons] at h
        rw [lev_cons_cons]
        by_cases hxy : x = y
        · rw [if_pos hxy]
          exact (ih xs ys (by omega)).1 x
        · rw [if_neg hxy]
          have f1 := (ih xs ys (by omega)).1 x
          have f2 := (ih xs ys (by omega)).2.2.1 y
          omega
    · intro x
      cases ys with
      | nil => simp; omega
      | cons y ys =>
        simp only [List.length_cons] at h
        rw [lev_cons_cons]
        by_cases hxy : x = y
        · rw [if_pos hxy]
          have := (ih xs ys (by omega)).2.1 y
          omega
        · rw [if_neg hxy]
          have g1 := (ih xs ys (by omega)).2.1 y
          have g2 := (ih xs ys (by omega)).2.2.2 x
          omega

/-- Every edit script bounds `lev` from above. -/
theorem align_le {xs ys : List Char} {n : Nat} (h : Align xs ys n) : lev xs ys ≤ n := by
  induction h with
  | nil => simp
  | copy c _ ih => rw [lev_cons_cons, if_pos rfl]; exact ih
  | subst x y _ ih =>
    rw [lev_cons_cons]
    by_cases hxy : x = y
    · rw [if_pos hxy]; omega
    · rw [if_neg hxy]; omega
  | del x _ ih =>
    rename_i xs' ys' n' _
    have hb := (lev_cons_bounds (xs'.length + ys'.length) xs' ys' le_rfl).1 x
    omega
  | ins y _ ih =>
    rename_i xs' ys' n' _
    have hb := (lev_cons_bounds (xs'.length + ys'.length) xs' ys' le_rfl).2.1 y
    omega

theorem lev_symm (xs ys : List Char) : lev xs ys = lev ys xs := by
  have h1 : lev ys xs ≤ lev xs ys :=
    align_le (lev_align (xs.length + ys.length) xs ys le_rfl).symm
  have h2 : lev xs ys ≤ lev ys xs :=
    align_le (lev_align (ys.length + xs.length) ys xs le_rfl).symm
  omega

theorem lev_reverse (xs ys : List Char) : lev xs.reverse ys.reverse = lev xs ys := by
  have h1 : ∀ us vs : List Char, lev us.reverse vs.reverse ≤ lev us vs := by
    intro us vs
    exact align_le (lev_align (us.length + vs.length) us vs le_rfl).rev
  have h2 := h1 xs.reverse ys.reverse
  rw [List.reverse_reverse, List.reverse_reverse] at h2
  exact Nat.le_antisymm (h1 xs ys) h2

theorem lev_le_max : ∀ (n : Nat) (xs ys : List Char), xs.length + ys.length ≤ n →
    lev xs ys ≤ max xs.length ys.length := by
  intro n
  induction n with
  | zero =>
    intro xs ys h
    match xs, ys with
    | [], [] => simp
    | x :: xs, _ => simp at h
    | [], y :: ys => simp at h
  | succ n ih =>
    intro xs ys h
    match xs, ys with
    | [], ys => simp
    | x :: xs, [] => simp
    | x :: xs, y :: ys =>
      simp only [List.length_cons] at h ⊢
      rw [lev_cons_cons]
      by_cases hxy : x = y
      · rw [if_pos hxy]
        have := ih xs ys (by omega)
        omega
      · rw [if_neg hxy]
        have := ih xs ys (by omega)
        omega

/-- Inner loop of the JavaScript matrix fill for one row: walks the remaining
characters of `a` (the `j` loop), carrying the previous row cells `ups`, the
diagonal cell `diag` and the cell just written `left`.  Mirrors
`matrix[i][j] = (b[i-1] == a[j-1]) ? diag : min(diag+1, left+1, up+1)`. -/
def levRowAux (bi : Char) : List Char → List Nat → Nat → Nat → List Nat
  | [], _, _, _ => []
  | _ :: _, [], _, _ => []
  | aj :: as, up :: ups, diag, left =>
    let cell := if bi = aj then diag else min (diag + 1) (min (left + 1) (up + 1))
    cell :: levRowAux bi as ups up cell

/-- One full row `i` of the matrix: `matrix[i] = [i]` extended by the inner
loop over `a`. -/
def levRow (bi : Char) (a : List Char) (i : Nat) (prev : List Nat) : List Nat :=
  i :: levRowAux bi a prev.tail (prev.headD 0) i

/-- The outer `i` loop over the characters of `b`, starting from row 0 and
returning the final row. -/
def levLoop (a : List Char) : List Char → Nat → List Nat → List Nat
  | [], _, prev => prev
  | bi :: bs, i, prev => levLoop a bs (i + 1) (levRow bi a i prev)

/-- Source: `getLevenshteinDistance(a, b)` — the dynamic-programming matrix
fill.  Note the early `if (!a || !b) return 0` guard of the source. -/
def getLevenshteinDistance (a b : List Char) : Nat :=
  if a = [] ∨ b = [] then 0
  else (levLoop a b 1 (List.range (a.length + 1))).getLastD 0

/-- Cell values of one row beyond column 0, indexed by the growing prefix of
`a`: `cells f pre as = [f (pre ++ [a1]), f (pre ++ [a1, a2]), ...]`. -/
def cells (f : List Char → Nat) : List Char → List Char → List Nat
  | _, [] => []
  | pre, x :: xs => f (pre ++ [x]) :: cells f (pre ++ [x]) xs

/-- A full row: column 0 followed by the remaining cells. -/
def fullRow (f : List Char → Nat) (a : List Char) : List Nat :=
  f [] :: cells f [] a

theorem cells_congr {f g : List Char → Nat} (h : ∀ u, f u = g u) :
    ∀ (as pre : List Char), cells f pre as = cells g pre as := by
  intro as
  induction as with
  | nil => intro pre; rfl
  | cons x xs ih => intro pre; rw [cells, cells, h, ih]

theorem cells_getLastD {f : List Char → Nat} :
    ∀ (as pre : List Char) (d : Nat), as ≠ [] → (cells f pre as).getLastD d = f (pre ++ as) := by
  intro as
  induction as with
  | nil => intro pre d h; exact absurd rfl h
  | cons x xs ih =>
    intro pre d _
    cases hxs : xs with
    | nil => simp [cells]
    | cons z zs =>
      rw [cells, List.getLastD_cons, ← hxs,
        ih (pre ++ [x]) (f (pre ++ [x])) (by rw [hxs]; simp)]
      congr 1
      simp

theorem cells_length_fn : ∀ (as pre : List Char),
    cells (fun u => u.length) pre as = List.range' (pre.length + 1) as.length := by
  intro as
  induction as with
  | nil => intro pre; rfl
  | cons x xs ih =>
    intro pre
    rw [cells, List.length_cons, List.range'_succ, ih]
    simp

theorem fullRow_congr {f g : List Char → Nat} (h : ∀ u, f u = g u) (a : List Char) :
    fullRow f a = fullRow g a := by
  rw [fullRow, fullRow, h, cells_congr h a []]

theorem range_eq_fullRow (a : List Char) :
    List.range (a.length + 1) = fullRow (fun u => lev u.reverse ([] : List Char)) a := by
  rw [fullRow_congr (g := fun u => u.length) (by intro u; simp) a]
  rw [fullRow, List.range_eq_range', List.range'_succ, cells_length_fn]
  simp

theorem levRowAux_spec (bi : Char) (w : List Char) :
    ∀ (as pre : List Char) (diag left : Nat),
      diag = lev pre.reverse w → left = lev pre.reverse (bi :: w) →
      levRowAux bi as (cells (fun u => lev u.reverse w) pre as) diag left
        = cells (fun u => lev u.reverse (bi :: w)) pre as := by
  intro as
  induction as with
  | nil => intro pre diag left _ _; rfl
  | cons aj as ih =>
    intro pre diag left hdiag hleft
    rw [cells, cells, levRowAux]
    have hrev : (pre ++ [aj]).reverse = aj :: pre.reverse := by simp
    have hcell : (if bi = aj then diag else min (diag + 1)
          (min (left + 1) (lev (pre ++ [aj]).reverse w + 1)))
        = lev (pre ++ [aj]).reverse (bi :: w) := by
      rw [hrev, lev_cons_cons, hdiag, hleft]
      by_cases hab : aj = bi
      · rw [if_pos hab, if_pos hab.symm]
      · rw [if_neg hab, if_neg (fun hba => hab hba.symm)]
        omega
    rw [hcell, ih (pre ++ [aj]) (lev (pre ++ [aj]).reverse w)
      (lev (pre ++ [aj]).reverse (bi :: w)) rfl rfl]

theorem levRow_spec (bi : Char) (a w : List Char) (i : Nat) (hi : i = w.length + 1) :
    levRow bi a i (fullRow (fun u => lev u.reverse w) a)
      = fullRow (fun u => lev u.reverse (bi :: w)) a := by
  rw [levRow, fullRow, fullRow, List.tail_cons, List.headD_cons]
  rw [levRowAux_spec bi w a [] _ _ (by simp) (by simp [hi])]
  congr 1
  simp [hi]

theorem levLoop_spec (a : List Char) :
    ∀ (bs w : List Char) (i : Nat), i = w.length + 1 →
      levLoop a bs i (fullRow (fun u => lev u.reverse w) a)
        = fullRow (fun u => lev u.reverse (bs.reverse ++ w)) a := by
  intro bs
  induction bs with
  | nil =>
    intro w i hi
    rw [levLoop]
    exact fullRow_congr (by intro u; simp) a
  | cons bi bs ih =>
    intro w i hi
    rw [levLoop, levRow_spec bi a w i hi, ih (bi :: w) (i + 1) (by simp [hi])]
    exact fullRow_congr (by intro u; simp) a

theorem fullRow_getLastD {f : List Char → Nat} (a : List Char) (ha : a ≠ []) :
    (fullRow f a).getLastD 0 = f a := by
  rw [fullRow, List.getLastD_cons, cells_getLastD a [] (f []) ha, List.nil_append]

/-- The JavaScript dynamic program computes the classic edit distance. -/
theorem getLevenshteinDistance_eq_lev (a b : List Char) (ha : a ≠ []) (hb : b ≠ []) :
    getLevenshteinDistance a b = lev a b := by
  rw [getLevenshteinDistance, if_neg (by simp [ha, hb])]
  rw [range_eq_fullRow a, levLoop_spec a b [] 1 (by simp)]
  rw [fullRow_congr (g := fun u => lev u.reverse b.reverse) (by intro u; simp) a]
  rw [fullRow_getLastD a ha, lev_reverse]

/-- Source: `calculateSimilarity(str1, str2)`.  Both sides are lowercased and
trimmed; equal strings score 100, an empty side scores 0, otherwise the score
is `((longest - distance) / longest) * 100`.  JavaScript numbers are modelled
as exact rationals. -/
def calculateSimilarity (str1 str2 : String) : Rat :=
  let s1 := normStr str1
  let s2 := normStr str2
  if s1 = s2 then 100
  else if s1 = [] ∨ s2 = [] then 0
  else
    let distance := getLevenshteinDistance s1 s2
    let longest := max s1.length s2.length
    ((longest : Rat) - (distance : Rat)) / (longest : Rat) * 100

theorem calculateSimilarity_of_norm_eq {a b : String} (h : normStr a = normStr b) :
    calculateSimilarity a b = 100 := by
  rw [calculateSimilarity]
  simp [h]

theorem calculateSimilarity_self (a : String) : calculateSimilarity a a = 100 :=
  calculateSimilarity_of_norm_eq rfl

theorem calculateSimilarity_of_empty {a b : String} (hne : normStr a ≠ normStr b)
    (h : normStr a = [] ∨ normStr b = []) : calculateSimilarity a b = 0 := by
  rw [calculateSimilarity]
  simp only [if_neg hne]
  rw [if_pos h]

theorem calculateSimilarity_formula {a b : String} (hne : normStr a ≠ normStr b)
    (ha : normStr a ≠ []) (hb : normStr b ≠ []) :
    calculateSimilarity a b =
      100 * (((max (normStr a).length (normStr b).length : Nat) : Rat)
          - (lev (normStr a) (normStr b) : Rat))
        / ((max (normStr a).length (normStr b).length : Nat) : Rat) := by
  rw [calculateSimilarity]
  simp only [if_neg hne, if_neg (fun h => Or.elim h ha hb)]
  rw [getLevenshteinDistance_eq_lev _ _ ha hb]
  ring

theorem calculateSimilarity_symm (a b : String) :
    calculateSimilarity a b = calculateSimilarity b a := by
  by_cases h1 : normStr a = normStr b
  · rw [calculateSimilarity_of_norm_eq h1, calculateSimilarity_of_norm_eq h1.symm]
  · have h1s : normStr b ≠ normStr a := fun h => h1 h.symm
    by_cases h2 : normStr a = [] ∨ normStr b = []
    · rw [calculateSimilarity_of_empty h1 h2, calculateSimilarity_of_empty h1s h2.symm]
    · push_neg at h2
      rw [calculateSimilarity_formula h1 h2.1 h2.2,
        calculateSimilarity_formula h1s h2.2 h2.1,
        lev_symm, Nat.max_comm]

theorem calculateSimilarity_nonneg (a b : String) : 0 ≤ calculateSimilarity a b := by
  by_cases h1 : normStr a = normStr b
  · rw [calculateSimilarity_of_norm_eq h1]
    norm_num
  · by_cases h2 : normStr a = [] ∨ normStr b = []
    · rw [calculateSimilarity_of_empty h1 h2]
    · push_neg at h2
      rw [calculateSimilarity_formula h1 h2.1 h2.2]
      have hlev : lev (normStr a) (normStr b) ≤
          max (normStr a).length (normStr b).length :=
        lev_le_max ((normStr a).length + (normStr b).length) _ _ le_rfl
      have hsub : (0 : Rat) ≤ ((max (normStr a).length (normStr b).length : Nat) : Rat)
          - (lev (normStr a) (normStr b) : Rat) := by
        rw [sub_nonneg]
        exact_mod_cast hlev
      have hL : (0 : Rat) ≤ ((max (normStr a).length (normStr b).length : Nat) : Rat) := by
        positivity
      apply div_nonneg _ hL
      have : (0 : Rat) ≤ 100 := by norm_num
      exact mul_nonneg this hsub

theorem calculateSimilarity_le_100 (a b : String) : calculateSimilarity a b ≤ 100 := by
  by_cases h1 : normStr a = normStr b
  · rw [calculateSimilarity_of_norm_eq h1]
  · by_cases h2 : normStr a = [] ∨ normStr b = []
    · rw [calculateSimilarity_of_empty h1 h2]
      norm_num
    · push_neg at h2
      rw [calculateSimilarity_formula h1 h2.1 h2.2]
      have hpos : (0 : Rat) < ((max (normStr a).length (normStr b).length : Nat) : Rat) := by
        have h3 : 0 < (normStr a).length := List.length_pos.mpr h2.1
        have h4 : 0 < max (normStr a).length (normStr b).length := by omega
        exact_mod_cast h4
      rw [div_le_iff₀ hpos]
      have hd : (0 : Rat) ≤ (lev (normStr a) (normStr b) : Rat) := by positivity
      linarith

theorem calculateSimilarity_congr_left {a a' : String} (b : String)
    (h : normStr a = normStr a') :
    calculateSimilarity a b = calculateSimilarity a' b := by
  rw [calculateSimilarity, calculateSimilarity, h]

theorem calculateSimilarity_jsTrim_left (l : List Char) (b : String) :
    calculateSimilarity ⟨jsTrim l⟩ b = calculateSimilarity l.asString b :=
  calculateSimilarity_congr_left b (normStr_mk_jsTrim l)

/-- User-entered registration record (the `regData` React state). -/
structure RegData where
  firstName : String
  lastName : String
  dob : String
  houseNo : String
  street : String
  flat : String
  postcode : String
  city : String
deriving DecidableEq

/-- The `address` object of the provider payload; absent fields are `none`. -/
structure JumioAddress where
  postalCode : Option String
  line1 : Option String
  city : Option String
deriving DecidableEq

/-- The `document` object of the provider payload. -/
structure JumioDocument where
  firstName : Option String
  lastName : Option String
  dob : Option String
  address : Option JumioAddress
  type : Option String
  issuingCountry : Option String
deriving DecidableEq

/-- Provider extraction payload (`jumioData`); the whole `document` object may
be absent. -/
structure JumioData where
  document : Option JumioDocument
deriving DecidableEq

/-- JavaScript `x || d` on an optionally-absent string: `undefined` and the
empty string are falsy. -/
def jsOr (x : Option String) (d : String) : String :=
  match x with
  | none => d
  | some s => if s = "" then d else s

/-- The defaulted document fields (step 1 of `performMatching`,
`const docData = \x7b ... \x7d`). -/
structure DocData where
  firstName : String
  lastName : String
  dob : String
  postcode : String
  addressLine : String
  city : String
  type : String
  country : String
deriving DecidableEq

def docDataOf (jumioData : JumioData) : DocData where
  firstName := jsOr (jumioData.document.bind JumioDocument.firstName) ""
  lastName := jsOr (jumioData.document.bind JumioDocument.lastName) ""
  dob := jsOr (jumioData.document.bind JumioDocument.dob) ""
  postcode := jsOr ((jumioData.document.bind JumioDocument.address).bind
    JumioAddress.postalCode) ""
  addressLine := jsOr ((jumioData.document.bind JumioDocument.address).bind
    JumioAddress.line1) ""
  city := jsOr ((jumioData.document.bind JumioDocument.address).bind JumioAddress.city) ""
  type := jsOr (jumioData.document.bind JumioDocument.type) "UNKNOWN"
  country := jsOr (jumioData.document.bind JumioDocument.issuingCountry) "UNKNOWN"

/-- Messages attached to a field check.  Exact checks carry Match/Mismatch;
fuzzy checks carry their similarity score; the document-rules check carries
one of its two fixed policy messages. -/
inductive CheckMessage where
  | matchMsg
  | mismatchMsg
  | similarityMsg (score : Rat)
  | nonUKDL
  | verifiedViaLicense
deriving DecidableEq

/-- One row of the match report.  The source field `match` is a Lean keyword
and is modelled as `matched`. -/
structure FieldCheck where
  field : String
  reg : String
  doc : String
  matched : Bool
  message : CheckMessage
deriving DecidableEq

def defaultCheck : FieldCheck :=
  { field := "", reg := "", doc := "", matched := false, message := .mismatchMsg }

structure MatchReport where
  passed : Bool
  checks : List FieldCheck
deriving DecidableEq

/-- Source: `performMatching(regData, jumioData)`. -/
def performMatching (regData : RegData) (jumioData : JumioData) : MatchReport :=
  let docData := docDataOf jumioData
  let regFullAddress : String := ⟨jsTrim (regData.houseNo ++ " " ++ regData.street).data⟩
  let dobMatch : Bool := decide (regData.dob = docData.dob)
  let regPC := normalizePostcode regData.postcode
  let docPC := normalizePostcode docData.postcode
  let pcMatch : Bool := decide (regPC = docPC)
  let lnSim := calculateSimilarity regData.lastName docData.lastName
  let lnMatch : Bool := decide (85 ≤ lnSim)
  let fnSim := calculateSimilarity regData.firstName docData.firstName
  let fnMatch : Bool := decide (85 ≤ fnSim)
  let adSim := calculateSimilarity regFullAddress docData.addressLine
  let adMatch : Bool := decide (70 ≤ adSim)
  let citySim := calculateSimilarity regData.city docData.city
  let cityMatch : Bool := decide (80 ≤ citySim)
  let isUKDL : Bool := decide (docData.type = "DRIVING_LICENSE") &&
    decide (docData.country = "GBR")
  let docValid : Bool := isUKDL
  { passed := dobMatch && pcMatch && lnMatch && fnMatch && adMatch && docValid
    checks := [
      { field := "Date of Birth", reg := regData.dob, doc := docData.dob,
        matched := dobMatch, message := if dobMatch then .matchMsg else .mismatchMsg },
      { field := "Postcode", reg := regPC, doc := docPC, matched := pcMatch,
        message := if pcMatch then .matchMsg else .mismatchMsg },
      { field := "Last Name", reg := regData.lastName, doc := docData.lastName,
        matched := lnMatch, message := .similarityMsg lnSim },
      { field := "First Name", reg := regData.firstName, doc := docData.firstName,
        matched := fnMatch, message := .similarityMsg fnSim },
      { field := "Address Match", reg := regFullAddress, doc := docData.addressLine,
        matched := adMatch, message := .similarityMsg adSim },
      { field := "City", reg := regData.city, doc := docData.city, matched := cityMatch,
        message := .similarityMsg citySim },
      if isUKDL then
        { field := "Document Rules", reg := "UK Logic", doc := "UK Driving License",
          matched := true, message := .verifiedViaLicense }
      else
        { field := "Document Rules", reg := "UK Logic",
          doc := docData.country ++ " " ++ docData.type, matched := false,
          message := .nonUKDL } ] }

theorem asString_data (s : String) : s.data.asString = s :=
  String.asString_toList s

/-- Configuration of the relay (`context.env`); a credential may be absent. -/
structure RelayEnv where
  JUMIO_TOKEN : Option String
  JUMIO_SECRET : Option String
deriving DecidableEq

/-- JavaScript truthiness test `!x` for an optionally-absent string:
`undefined` and the empty string are falsy. -/
def jsFalsy (x : Option String) : Bool :=
  match x with
  | none => true
  | some s => decide (s = "")

/-- The parts of the incoming request that `onRequest` inspects: the HTTP
method and the `scanReference` query parameter (`none` when missing). -/
structure RelayRequest where
  method : String
  scanReference : Option String
deriving DecidableEq

/-- Oracle for the effects of one invocation: the outcome of parsing the POST
body and calling the provider (`Except.error` models a thrown exception caught
by the handler), and the provider JSON returned for a GET. -/
structure RelayUpstream where
  postOutcome : Except String String
  getData : String

/-- Body of a relay response.  `jsonError msg` abstracts
`JSON.stringify(\x7b error: msg \x7d)`; `json data` a passthrough payload. -/
inductive RelayBody where
  | jsonError (msg : String)
  | json (data : String)
  | text (msg : String)
deriving DecidableEq

structure RelayResponse where
  status : Nat
  body : RelayBody
deriving DecidableEq

/-- Source: the Cloudflare Pages function `onRequest(context)`. -/
def onRequest (env : RelayEnv) (req : RelayRequest) (up : RelayUpstream) : RelayResponse :=
  if jsFalsy env.JUMIO_TOKEN || jsFalsy env.JUMIO_SECRET then
    { status := 500, body := .jsonError "Missing API Keys in Cloudflare" }
  else if req.method = "POST" then
    match up.postOutcome with
    | .ok data => { status := 200, body := .json data }
    | .error msg => { status := 500, body := .jsonError msg }
  else if req.method = "GET" then
    if jsFalsy req.scanReference then
      { status := 400, body := .text "Missing Reference" }
    else
      { status := 200, body := .json up.getData }
  else
    { status := 405, body := .text "Method not allowed" }

/-- C6.  Postcode normalization strips all whitespace, uppercases the
remainder, and is idempotent. -/
theorem normalizePostcode_spec (x : String) :
    (normalizePostcode x).data = (x.data.filter (fun c => !isWS c)).map Char.toUpper
    ∧ normalizePostcode (normalizePostcode x) = normalizePostcode x :=
  ⟨rfl, normalizePostcode_idem x⟩

/-- C5.  The similarity score is symmetric in its two arguments. -/
theorem calculateSimilarity_comm (a b : String) :
    calculateSimilarity a b = calculateSimilarity b a :=
  calculateSimilarity_symm a b

/-- C9.  With either credential absent, every request is answered with
HTTP 500 and the fixed JSON error body; no request reaches the 400 or 405
branches. -/
theorem onRequest_missing_credentials (env : RelayEnv) (req : RelayRequest)
    (up : RelayUpstream) (h : env.JUMIO_TOKEN = none ∨ env.JUMIO_SECRET = none) :
    onRequest env req up =
      { status := 500, body := .jsonError "Missing API Keys in Cloudflare" } := by
  rcases h with h | h <;> · rw [onRequest, if_pos (by rw [h]; simp [jsFalsy])]

theorem onRequest_missing_credentials_witness :
    onRequest ⟨none, some "secret"⟩ ⟨"GET", some "ref-1"⟩ ⟨.ok "data", "payload"⟩ =
      { status := 500, body := .jsonError "Missing API Keys in Cloudflare" } :=
  onRequest_missing_credentials _ _ _ (Or.inl rfl)

/-- C7.  With credentials configured, a GET with no reference parameter gets
HTTP 400, and any method other than POST and GET gets HTTP 405. -/
theorem onRequest_bad_request_spec (env : RelayEnv) (req : RelayRequest)
    (up : RelayUpstream) (h1 : jsFalsy env.JUMIO_TOKEN = false)
    (h2 : jsFalsy env.JUMIO_SECRET = false) :
    (req.method = "GET" → req.scanReference = none → (onRequest env req up).status = 400)
    ∧ (req.method ≠ "POST" → req.method ≠ "GET" → (onRequest env req up).status = 405) := by
  constructor
  · intro hm hr
    rw [onRequest, if_neg (by rw [h1, h2]; simp), if_neg (by rw [hm]; decide),
      if_pos hm, if_pos (by rw [hr]; rfl)]
  · intro hp hg
    rw [onRequest, if_neg (by rw [h1, h2]; simp), if_neg hp, if_neg hg]

theorem onRequest_bad_request_witness :
    (onRequest ⟨some "tok", some "sec"⟩ ⟨"GET", none⟩ ⟨.ok "d", "g"⟩).status = 400
    ∧ (onRequest ⟨some "tok", some "sec"⟩ ⟨"PUT", none⟩ ⟨.ok "d", "g"⟩).status = 405 :=
  ⟨(onRequest_bad_request_spec _ _ _ (by decide) (by decide)).1 rfl rfl,
   (onRequest_bad_request_spec _ _ _ (by decide) (by decide)).2 (by decide) (by decide)⟩

theorem normStr_eq_nil_of_ws {a : String} (h : ∀ c ∈ a.data, isWS c = true) :
    normStr a = [] := by
  apply jsTrim_all_ws
  intro c hc
  rcases List.mem_map.mp hc with ⟨d, hd, rfl⟩
  rw [isWS_toLower]
  exact h d hd

theorem normStr_eq_nil_iff (b : String) : normStr b = [] ↔ jsTrim b.data = [] := by
  rw [normStr, jsTrim_eq_nil_iff, jsTrim_eq_nil_iff]
  constructor
  · intro h c hc
    have hm := h (Char.toLower c) (List.mem_map_of_mem _ hc)
    rwa [isWS_toLower] at hm
  · intro h c hc
    rcases List.mem_map.mp hc with ⟨d, hd, rfl⟩
    rw [isWS_toLower]
    exact h d hd

/-- C2 (amended).  The similarity score follows the spec rules: 100 when the
normalized strings are equal, 0 when exactly one normalized side is empty,
otherwise the edit-distance formula over the normalized strings; similarity
with itself is 100, a string that is non-empty AFTER normalization scores 0
against the empty string, and the score always lies in [0, 100]. -/
theorem calculateSimilarity_spec (a b : String) :
    (normStr a = normStr b → calculateSimilarity a b = 100)
    ∧ (normStr a ≠ normStr b → (normStr a = [] ∨ normStr b = []) →
        calculateSimilarity a b = 0)
    ∧ (normStr a ≠ normStr b → normStr a ≠ [] → normStr b ≠ [] →
        calculateSimilarity a b =
          100 * (((max (normStr a).length (normStr b).length : Nat) : Rat)
              - (lev (normStr a) (normStr b) : Rat))
            / ((max (normStr a).length (normStr b).length : Nat) : Rat))
    ∧ calculateSimilarity a a = 100
    ∧ (normStr a ≠ [] → calculateSimilarity a "" = 0)
    ∧ 0 ≤ calculateSimilarity a b ∧ calculateSimilarity a b ≤ 100 := by
  refine ⟨calculateSimilarity_of_norm_eq, calculateSimilarity_of_empty,
    calculateSimilarity_formula, calculateSimilarity_self a, ?_,
    calculateSimilarity_nonneg a b, calculateSimilarity_le_100 a b⟩
  intro ha
  exact calculateSimilarity_of_empty
    (by intro hh; exact ha (by rw [hh]; rfl)) (Or.inr rfl)

/-- C2 counterexample: the string of one space is non-empty, yet its
similarity against the empty string is 100, not 0 — whitespace-only strings
normalize to empty. -/
theorem calculateSimilarity_whitespace_cex :
    (" " : String) ≠ "" ∧ calculateSimilarity " " "" = 100
    ∧ ¬ calculateSimilarity " " "" = 0 := by
  refine ⟨by decide, by decide, ?_⟩
  rw [show calculateSimilarity " " "" = 100 by decide]
  norm_num

theorem calculateSimilarity_spec_witness :
    calculateSimilarity "ab" "" = 0 ∧ calculateSimilarity "ab" "ab" = 100 :=
  ⟨(calculateSimilarity_spec "ab" "").2.2.2.2.1 (by decide),
   (calculateSimilarity_spec "ab" "xy").2.2.2.1⟩

/-- C10.  A string of only whitespace is treated as empty by the similarity
function: it scores 100 against the empty string and 0 against every string
whose trimmed form is non-empty. -/
theorem calculateSimilarity_all_whitespace (a : String)
    (h : ∀ c ∈ a.data, isWS c = true) :
    calculateSimilarity a "" = 100
    ∧ ∀ b : String, jsTrim b.data ≠ [] → calculateSimilarity a b = 0 := by
  have ha : normStr a = [] := normStr_eq_nil_of_ws h
  constructor
  · exact calculateSimilarity_of_norm_eq (by rw [ha]; rfl)
  · intro b hb
    have hb' : normStr b ≠ [] := fun hh => hb ((normStr_eq_nil_iff b).mp hh)
    exact calculateSimilarity_of_empty
      (by rw [ha]; exact fun hh => hb' hh.symm) (Or.inl ha)

theorem calculateSimilarity_all_whitespace_witness :
    calculateSimilarity "  " "" = 100 ∧ calculateSimilarity "  " "x" = 0 :=
  ⟨(calculateSimilarity_all_whitespace "  " (by decide)).1,
   (calculateSimilarity_all_whitespace "  " (by decide)).2 "x" (by decide)⟩

/-- C1.  The aggregate verdict equals the conjunction of the six
aggregate-relevant check outcomes (DOB, postcode, last name, first name,
address, document rules); the city check (index 5) has no influence: changing
the registered city never changes `passed`. -/
theorem performMatching_passed_spec (r : RegData) (j : JumioData) :
    ((performMatching r j).passed =
      (((performMatching r j).checks.getD 0 defaultCheck).matched &&
       ((performMatching r j).checks.getD 1 defaultCheck).matched &&
       ((performMatching r j).checks.getD 2 defaultCheck).matched &&
       ((performMatching r j).checks.getD 3 defaultCheck).matched &&
       ((performMatching r j).checks.getD 4 defaultCheck).matched &&
       ((performMatching r j).checks.getD 6 defaultCheck).matched))
    ∧ (∀ c : String, (performMatching { r with city := c } j).passed
        = (performMatching r j).passed) := by
  constructor
  · by_cases hUK : (decide ((docDataOf j).type = "DRIVING_LICENSE") &&
        decide ((docDataOf j).country = "GBR")) = true
    · simp [performMatching, hUK]
    · simp only [Bool.not_eq_true] at hUK
      simp [performMatching, hUK]
  · intro c
    rfl

/-- C3.  The report consists of exactly the seven checks in fixed order, each
outcome computed as specified (DOB exact, postcode normalized-exact, names at
85, address — house number and street joined by one space — at 70, city at
80, document rules categorical); in particular Smith versus Smyth scores 80,
failing the 85 threshold. -/
theorem performMatching_checks_spec (r : RegData) (j : JumioData) :
    ((performMatching r j).checks.map FieldCheck.field =
      ["Date of Birth", "Postcode", "Last Name", "First Name", "Address Match", "City",
        "Document Rules"])
    ∧ ((performMatching r j).checks.map FieldCheck.matched =
      [decide (r.dob = (docDataOf j).dob),
       decide (normalizePostcode r.postcode = normalizePostcode (docDataOf j).postcode),
       decide (85 ≤ calculateSimilarity r.lastName (docDataOf j).lastName),
       decide (85 ≤ calculateSimilarity r.firstName (docDataOf j).firstName),
       decide (70 ≤ calculateSimilarity (r.houseNo ++ " " ++ r.street)
         (docDataOf j).addressLine),
       decide (80 ≤ calculateSimilarity r.city (docDataOf j).city),
       decide ((docDataOf j).type = "DRIVING_LICENSE" ∧ (docDataOf j).country = "GBR")])
    ∧ calculateSimilarity "Smith" "Smyth" = 80
    ∧ decide ((85 : Rat) ≤ 80) = false := by
  refine ⟨?_, ?_, ?_, by norm_num⟩
  · by_cases hUK : (decide ((docDataOf j).type = "DRIVING_LICENSE") &&
        decide ((docDataOf j).country = "GBR")) = true
    · simp [performMatching, hUK]
    · simp only [Bool.not_eq_true] at hUK
      simp [performMatching, hUK]
  · have hdata : (r.houseNo ++ " " ++ r.street).data
        = r.houseNo.data ++ ' ' :: r.street.data := by
      simp
    have haddr : ∀ x, calculateSimilarity ⟨jsTrim (r.houseNo.data ++ ' ' :: r.street.data)⟩ x
        = calculateSimilarity (r.houseNo ++ " " ++ r.street) x := by
      intro x
      rw [← hdata, calculateSimilarity_jsTrim_left, asString_data]
    by_cases hUK : (decide ((docDataOf j).type = "DRIVING_LICENSE") &&
        decide ((docDataOf j).country = "GBR")) = true
    · simp [performMatching, hUK]
      rw [haddr]
    · simp only [Bool.not_eq_true] at hUK
      simp [performMatching, hUK]
      rw [haddr]
  · rw [calculateSimilarity_formula (by decide) (by decide) (by decide)]
    rw [show lev (normStr "Smith") (normStr "Smyth")
        = getLevenshteinDistance (normStr "Smith") (normStr "Smyth") from
      (getLevenshteinDistance_eq_lev _ _ (by decide) (by decide)).symm]
    rw [show getLevenshteinDistance (normStr "Smith") (normStr "Smyth") = 1 from by decide]
    rw [show max (normStr "Smith").length (normStr "Smyth").length = 5 from by decide]
    norm_num

/-- C4.  The document-rules check passes exactly for a GBR driving license;
on failure it carries the proof-of-address message, and the aggregate verdict
is false regardless of the other fields. -/
theorem performMatching_documentRules_spec (r : RegData) (j : JumioData) :
    (((performMatching r j).checks.getD 6 defaultCheck).matched = true ↔
      ((docDataOf j).type = "DRIVING_LICENSE" ∧ (docDataOf j).country = "GBR"))
    ∧ (((performMatching r j).checks.getD 6 defaultCheck).matched = false →
        ((performMatching r j).checks.getD 6 defaultCheck).message = CheckMessage.nonUKDL)
    ∧ (((performMatching r j).checks.getD 6 defaultCheck).matched = false →
        (performMatching r j).passed = false) := by
  by_cases hUK : (decide ((docDataOf j).type = "DRIVING_LICENSE") &&
      decide ((docDataOf j).country = "GBR")) = true
  · have hp : (docDataOf j).type = "DRIVING_LICENSE" ∧ (docDataOf j).country = "GBR" := by
      simpa [Bool.and_eq_true, decide_eq_true_eq] using hUK
    simp [performMatching, hUK, hp]
  · have hp : ¬((docDataOf j).type = "DRIVING_LICENSE" ∧ (docDataOf j).country = "GBR") := by
      intro hc
      rw [decide_eq_true hc.1, decide_eq_true hc.2] at hUK
      exact hUK rfl
    simp only [Bool.not_eq_true] at hUK
    simp [performMatching, hUK, hp]

theorem performMatching_documentRules_witness :
    (performMatching ⟨"John", "Smith", "1990-01-01", "10", "Downing Street", "",
        "SW1A 2AA", "London"⟩
      ⟨some ⟨some "John", some "Smith", some "1990-01-01",
        some ⟨some "sw1a2aa", some "10 Downing Street", some "London"⟩,
        some "PASSPORT", some "FRA"⟩⟩).passed = false
    ∧ ((performMatching ⟨"John", "Smith", "1990-01-01", "10", "Downing Street", "",
        "SW1A 2AA", "London"⟩
      ⟨some ⟨some "John", some "Smith", some "1990-01-01",
        some ⟨some "sw1a2aa", some "10 Downing Street", some "London"⟩,
        some "PASSPORT", some "FRA"⟩⟩).checks.getD 6 defaultCheck).message
      = CheckMessage.nonUKDL :=
  ⟨(performMatching_documentRules_spec _ _).2.2 (by decide),
   (performMatching_documentRules_spec _ _).2.1 (by decide)⟩

/-- C8 counterexample: the claim fails on two counts at concrete inputs.
With the document object absent, the defaulted value for the document type
and issuing country is the string UNKNOWN, not the empty string; and with an
all-empty registration record against that same absent document, the affected
Date of Birth and Last Name checks report a match, not an explicit mismatch
(both sides coincide once the absent field is defaulted). -/
theorem docDataOf_unknown_cex :
    (docDataOf ⟨none⟩).type = "UNKNOWN" ∧ ¬ (docDataOf ⟨none⟩).type = ""
    ∧ (docDataOf ⟨none⟩).country = "UNKNOWN" ∧ ¬ (docDataOf ⟨none⟩).country = ""
    ∧ ((performMatching ⟨"", "", "", "", "", "", "", ""⟩
        ⟨none⟩).checks.getD 0 defaultCheck).matched = true
    ∧ ((performMatching ⟨"", "", "", "", "", "", "", ""⟩
        ⟨none⟩).checks.getD 2 defaultCheck).matched = true := by
  refine ⟨rfl, by decide, rfl, by decide, by decide, by decide⟩

/-- C8 (amended).  `performMatching` never throws: every payload, however
malformed, yields the full seven-check report.  Absent string fields — first
name, last name, dob, postal code, address line, city, whether the whole
document object, the address object, or the single field is absent — are
treated as empty strings, while an absent document type or issuing country
(or the whole document) is treated as the string UNKNOWN.  Every affected
check whose registration side is non-empty under that check's normalization
is reported as an explicit mismatch (an empty registration side instead
coincides with the default and the check passes); the document-rules check
fails whenever the document object, the document type, or the issuing
country is absent. -/
theorem performMatching_degrades_gracefully (r : RegData) (j : JumioData) :
    (performMatching r j).checks.length = 7
    ∧ (j.document = none →
        docDataOf j = ⟨"", "", "", "", "", "", "UNKNOWN", "UNKNOWN"⟩
        ∧ (r.dob ≠ "" → ((performMatching r j).checks.getD 0 defaultCheck).matched = false)
        ∧ (normalizePostcode r.postcode ≠ "" →
            ((performMatching r j).checks.getD 1 defaultCheck).matched = false)
        ∧ (normStr r.lastName ≠ [] →
            ((performMatching r j).checks.getD 2 defaultCheck).matched = false)
        ∧ (normStr r.firstName ≠ [] →
            ((performMatching r j).checks.getD 3 defaultCheck).matched = false)
        ∧ (normStr (r.houseNo ++ " " ++ r.street) ≠ [] →
            ((performMatching r j).checks.getD 4 defaultCheck).matched = false)
        ∧ (normStr r.city ≠ [] →
            ((performMatching r j).checks.getD 5 defaultCheck).matched = false)
        ∧ ((performMatching r j).checks.getD 6 defaultCheck).matched = false)
    ∧ (∀ d : JumioDocument, j.document = some d →
        (d.dob = none → (docDataOf j).dob = ""
          ∧ (r.dob ≠ "" →
              ((performMatching r j).checks.getD 0 defaultCheck).matched = false))
        ∧ (d.lastName = none → (docDataOf j).lastName = ""
          ∧ (normStr r.lastName ≠ [] →
              ((performMatching r j).checks.getD 2 defaultCheck).matched = false))
        ∧ (d.firstName = none → (docDataOf j).firstName = ""
          ∧ (normStr r.firstName ≠ [] →
              ((performMatching r j).checks.getD 3 defaultCheck).matched = false))
        ∧ (d.address = none →
            (docDataOf j).postcode = "" ∧ (docDataOf j).addressLine = ""
            ∧ (docDataOf j).city = ""
            ∧ (normalizePostcode r.postcode ≠ "" →
                ((performMatching r j).checks.getD 1 defaultCheck).matched = false)
            ∧ (normStr (r.houseNo ++ " " ++ r.street) ≠ [] →
                ((performMatching r j).checks.getD 4 defaultCheck).matched = false)
            ∧ (normStr r.city ≠ [] →
                ((performMatching r j).checks.getD 5 defaultCheck).matched = false))
        ∧ (∀ addr : JumioAddress, d.address = some addr →
            (addr.postalCode = none → (docDataOf j).postcode = ""
              ∧ (normalizePostcode r.postcode ≠ "" →
                  ((performMatching r j).checks.getD 1 defaultCheck).matched = false))
            ∧ (addr.line1 = none → (docDataOf j).addressLine = ""
              ∧ (normStr (r.houseNo ++ " " ++ r.street) ≠ [] →
                  ((performMatching r j).checks.getD 4 defaultCheck).matched = false))
            ∧ (addr.city = none → (docDataOf j).city = ""
              ∧ (normStr r.city ≠ [] →
                  ((performMatching r j).checks.getD 5 defaultCheck).matched = false)))
        ∧ (d.type = none → (docDataOf j).type = "UNKNOWN"
          ∧ ((performMatching r j).checks.getD 6 defaultCheck).matched = false)
        ∧ (d.issuingCountry = none → (docDataOf j).country = "UNKNOWN"
          ∧ ((performMatching r j).checks.getD 6 defaultCheck).matched = false)) := by
  have hzero : ∀ s : String, normStr s ≠ [] → calculateSimilarity s "" = 0 := by
    intro s hs
    exact calculateSimilarity_of_empty (by intro hh; exact hs (by rw [hh]; rfl)) (Or.inr rfl)
  have hdata : (r.houseNo ++ " " ++ r.street).data
      = r.houseNo.data ++ ' ' :: r.street.data := by
    simp
  have haddr : ∀ x, calculateSimilarity ⟨jsTrim (r.houseNo.data ++ ' ' :: r.street.data)⟩ x
      = calculateSimilarity (r.houseNo ++ " " ++ r.street) x := by
    intro x
    rw [← hdata, calculateSimilarity_jsTrim_left, asString_data]
  have hpc : normalizePostcode "" = "" := rfl
  refine ⟨by simp [performMatching], ?_, ?_⟩
  · intro h
    refine ⟨by simp [docDataOf, h, jsOr], ?_, ?_, ?_, ?_, ?_, ?_, ?_⟩
    · intro hr
      simp [performMatching, docDataOf, h, jsOr, hr]
    · intro hr
      simp [performMatching, docDataOf, h, jsOr, hpc, hr]
    · intro hr
      have h0 := hzero r.lastName hr
      simp [performMatching, docDataOf, h, jsOr, h0]
    · intro hr
      have h0 := hzero r.firstName hr
      simp [performMatching, docDataOf, h, jsOr, h0]
    · intro hr
      have h0 := hzero (r.houseNo ++ " " ++ r.street) hr
      simp [performMatching, docDataOf, h, jsOr, haddr, h0]
    · intro hr
      have h0 := hzero r.city hr
      simp [performMatching, docDataOf, h, jsOr, h0]
    · simp [performMatching, docDataOf, h, jsOr]
  · intro d hd
    refine ⟨?_, ?_, ?_, ?_, ?_, ?_, ?_⟩
    · intro hf
      refine ⟨by simp [docDataOf, hd, hf, jsOr], ?_⟩
      intro hr
      simp [performMatching, docDataOf, hd, hf, jsOr, hr]
    · intro hf
      refine ⟨by simp [docDataOf, hd, hf, jsOr], ?_⟩
      intro hr
      have h0 := hzero r.lastName hr
      simp [performMatching, docDataOf, hd, hf, jsOr, h0]
    · intro hf
      refine ⟨by simp [docDataOf, hd, hf, jsOr], ?_⟩
      intro hr
      have h0 := hzero r.firstName hr
      simp [performMatching, docDataOf, hd, hf, jsOr, h0]
    · intro hf
      refine ⟨by simp [docDataOf, hd, hf, jsOr], by simp [docDataOf, hd, hf, jsOr],
        by simp [docDataOf, hd, hf, jsOr], ?_, ?_, ?_⟩
      · intro hr
        simp [performMatching, docDataOf, hd, hf, jsOr, hpc, hr]
      · intro hr
        have h0 := hzero (r.houseNo ++ " " ++ r.street) hr
        simp [performMatching, docDataOf, hd, hf, jsOr, haddr, h0]
      · intro hr
        have h0 := hzero r.city hr
        simp [performMatching, docDataOf, hd, hf, jsOr, h0]
    · intro addr had
      refine ⟨?_, ?_, ?_⟩
      · intro hf
        refine ⟨by simp [docDataOf, hd, had, hf, jsOr], ?_⟩
        intro hr
        simp [performMatching, docDataOf, hd, had, hf, jsOr, hpc, hr]
      · intro hf
        refine ⟨by simp [docDataOf, hd, had, hf, jsOr], ?_⟩
        intro hr
        have h0 := hzero (r.houseNo ++ " " ++ r.street) hr
        simp [performMatching, docDataOf, hd, had, hf, jsOr, haddr, h0]
      · intro hf
        refine ⟨by simp [docDataOf, hd, had, hf, jsOr], ?_⟩
        intro hr
        have h0 := hzero r.city hr
        simp [performMatching, docDataOf, hd, had, hf, jsOr, h0]
    · intro hf
      refine ⟨by simp [docDataOf, hd, hf, jsOr], ?_⟩
      simp [performMatching, docDataOf, hd, hf, jsOr]
    · intro hf
      refine ⟨by simp [docDataOf, hd, hf, jsOr], ?_⟩
      simp [performMatching, docDataOf, hd, hf, jsOr]

theorem performMatching_degrades_witness :
    (performMatching ⟨"John", "Smith", "1990-01-01", "10", "Downing Street", "",
        "SW1A 2AA", "London"⟩ ⟨none⟩).checks.length = 7
    ∧ ((performMatching ⟨"John", "Smith", "1990-01-01", "10", "Downing Street", "",
        "SW1A 2AA", "London"⟩ ⟨none⟩).checks.getD 2 defaultCheck).matched = false
    ∧ ((performMatching ⟨"John", "Smith", "1990-01-01", "10", "Downing Street", "",
        "SW1A 2AA", "London"⟩ ⟨none⟩).checks.getD 6 defaultCheck).matched = false
    ∧ ((performMatching ⟨"John", "Smith", "1990-01-01", "10", "Downing Street", "",
        "SW1A 2AA", "London"⟩
      ⟨some ⟨some "John", some "Smith", none,
        some ⟨some "sw1a2aa", some "10 Downing Street", some "London"⟩,
        some "DRIVING_LICENSE", some "GBR"⟩⟩).checks.getD 0 defaultCheck).matched = false
    ∧ ((performMatching ⟨"John", "Smith", "1990-01-01", "10", "Downing Street", "",
        "SW1A 2AA", "London"⟩
      ⟨some ⟨some "John", some "Smith", some "1990-01-01",
        some ⟨some "sw1a2aa", some "10 Downing Street", some "London"⟩,
        none, some "GBR"⟩⟩).checks.getD 6 defaultCheck).matched = false :=
  ⟨(performMatching_degrades_gracefully ⟨"John", "Smith", "1990-01-01", "10",
      "Downing Street", "", "SW1A 2AA", "London"⟩ ⟨none⟩).1,
   ((performMatching_degrades_gracefully ⟨"John", "Smith", "1990-01-01", "10",
      "Downing Street", "", "SW1A 2AA", "London"⟩ ⟨none⟩).2.1 rfl).2.2.2.1 (by decide),
   ((performMatching_degrades_gracefully ⟨"John", "Smith", "1990-01-01", "10",
      "Downing Street", "", "SW1A 2AA", "London"⟩ ⟨none⟩).2.1 rfl).2.2.2.2.2.2.2,
   (((performMatching_degrades_gracefully ⟨"John", "Smith", "1990-01-01", "10",
      "Downing Street", "", "SW1A 2AA", "London"⟩
      ⟨some ⟨some "John", some "Smith", none,
        some ⟨some "sw1a2aa", some "10 Downing Street", some "London"⟩,
        some "DRIVING_LICENSE", some "GBR"⟩⟩).2.2 _ rfl).1 rfl).2 (by decide),
   (((performMatching_degrades_gracefully ⟨"John", "Smith", "1990-01-01", "10",
      "Downing Street", "", "SW1A 2AA", "London"⟩
      ⟨some ⟨some "John", some "Smith", some "1990-01-01",
        some ⟨some "sw1a2aa", some "10 Downing Street", some "London"⟩,
        none, some "GBR"⟩⟩).2.2 _ rfl).2.2.2.2.2.1 rfl).2⟩

end Jumio
